import Mathlib

/-!
# Verification of the TruthSea graph/staking/dispute engine

Shallow embedding of the `TruthDAG` contract (edge lifecycle, bounded-DFS
cycle detection, score propagation, dispute resolution, weak-link flags,
admin configuration) and the `TruthStaking` vault contract, together with
proofs settling the specification claims about them.

Modelling conventions:
* `address` and `bytes32` values are modelled as `Nat`.
* Solidity mappings are total functions `Nat → _` (zero-initialised, so a
  never-written slot holds the all-zero record, exactly as on chain).
* `keccak256` purpose keys are modelled injectively: the dedup key for an
  edge is the triple `(source, target, type)` itself, and the stake key
  `keccak256("edge", id)` is the id itself.
* Machine integers are `Nat`; a Solidity truncating cast `uint16(x)` is
  `x % 65536`.  Checked 256-bit arithmetic that cannot overflow for the
  inputs under study is plain `Nat` arithmetic.
* Reverting calls are `Except Err _`; an error value means the call left
  the state untouched (all-or-nothing semantics of the host ledger).
* The ERC20 token is a balance map; `transferFrom` allowance bookkeeping
  is abstracted away, balance sufficiency is kept.
-/

namespace TruthSea

/-- Pointwise update of a one-key Solidity mapping. -/
def upd {α : Type} (f : Nat → α) (k : Nat) (v : α) : Nat → α :=
  fun x => if x = k then v else f x

/-- Pointwise update of a two-key Solidity mapping (`user → key → value`). -/
def upd2 {α : Type} (f : Nat → Nat → α) (a k : Nat) (v : α) : Nat → Nat → α :=
  fun x y => if x = a ∧ y = k then v else f x y

/-- Rejection reasons (the `require` strings of both contracts). -/
inductive Err where
  | selfReference
  | confidenceOutOfRange
  | sourceQuantumMissing
  | targetQuantumMissing
  | duplicateEdge
  | cycleDetected
  | insufficientStake
  | edgeNotActive
  | cannotDisputeOwn
  | notOwner
  | weightsMustSum
  | zeroAmount
  | transferFailed
  | stakeLocked
  | noStake
  | notAuthorized
  | invalidBps
  | insufficientStakeForTransfer
  deriving DecidableEq, Repr

/-- External ERC20 token balances (`TruthToken`). -/
structure TokenState where
  balances : Nat → Nat

/-- `IERC20.transfer` / `transferFrom`: move `amount` from `src` to `dst`,
failing if `src` holds less than `amount`. -/
def tokenTransfer (tk : TokenState) (src dst amount : Nat) : Except Err TokenState :=
  if amount ≤ tk.balances src then
    let b1 := upd tk.balances src (tk.balances src - amount)
    Except.ok { balances := upd b1 dst (b1 dst + amount) }
  else
    Except.error Err.transferFailed

/-- `ITruthToken.mint`: credit `dst` with `amount` freshly minted tokens. -/
def mintTok (tk : TokenState) (dst amount : Nat) : TokenState :=
  { balances := upd tk.balances dst (tk.balances dst + amount) }

/-- State of the `TruthStaking` vault contract. -/
structure VaultState where
  stakes : Nat → Nat → Nat
  locked : Nat → Nat → Bool
  authorized : Nat → Bool
  vaultOwner : Nat

/-- `TruthStaking.stake(key, amount)`: caller moves `amount` tokens into the
vault, recorded additively under `(caller, key)`. -/
def vStake (v : VaultState) (tk : TokenState) (vaultAddr caller key amount : Nat) :
    Except Err (VaultState × TokenState) :=
  if amount = 0 then Except.error Err.zeroAmount
  else
    match tokenTransfer tk caller vaultAddr amount with
    | Except.error e => Except.error e
    | Except.ok tk1 =>
        Except.ok
          ({ v with stakes := upd2 v.stakes caller key (v.stakes caller key + amount) }, tk1)

/-- `TruthStaking.unstake(key)`: withdraw the full unlocked record. -/
def vUnstake (v : VaultState) (tk : TokenState) (vaultAddr caller key : Nat) :
    Except Err (VaultState × TokenState) :=
  if v.locked caller key = true then Except.error Err.stakeLocked
  else
    let amount := v.stakes caller key
    if amount = 0 then Except.error Err.noStake
    else
      match tokenTransfer tk vaultAddr caller amount with
      | Except.error e => Except.error e
      | Except.ok tk1 =>
          Except.ok ({ v with stakes := upd2 v.stakes caller key 0 }, tk1)

/-- `TruthStaking.lockStake(user, key)` (authorized callers only). -/
def vLock (v : VaultState) (caller user key : Nat) : Except Err VaultState :=
  if v.authorized caller = true then
    Except.ok { v with locked := upd2 v.locked user key true }
  else Except.error Err.notAuthorized

/-- `TruthStaking.slash(user, key, bps)`: burn `staked * bps / 10000` out of
the record (authorized callers only). -/
def vSlash (v : VaultState) (caller user key bps : Nat) : Except Err VaultState :=
  if v.authorized caller = true then
    if 0 < bps ∧ bps ≤ 10000 then
      let staked := v.stakes user key
      if 0 < staked then
        Except.ok { v with stakes := upd2 v.stakes user key (staked - staked * bps / 10000) }
      else Except.error Err.noStake
    else Except.error Err.invalidBps
  else Except.error Err.notAuthorized

/-- `TruthStaking.transferStake(from, key, to, amount)`: move `amount` out of
the record straight to `dst`'s external token balance. -/
def vTransferStake (v : VaultState) (tk : TokenState) (vaultAddr caller src key dst amount : Nat) :
    Except Err (VaultState × TokenState) :=
  if v.authorized caller = true then
    if amount ≤ v.stakes src key then
      match tokenTransfer tk vaultAddr dst amount with
      | Except.error e => Except.error e
      | Except.ok tk1 =>
          Except.ok ({ v with stakes := upd2 v.stakes src key (v.stakes src key - amount) }, tk1)
    else Except.error Err.insufficientStakeForTransfer
  else Except.error Err.notAuthorized

/-- `stake` immediately followed by `unstake` under the same key (the
round-trip of the spec's testable property). -/
def stakeThenUnstake (v : VaultState) (tk : TokenState) (vaultAddr caller key amount : Nat) :
    Except Err (VaultState × TokenState) :=
  match vStake v tk vaultAddr caller key amount with
  | Except.error e => Except.error e
  | Except.ok (v1, tk1) => vUnstake v1 tk1 vaultAddr caller key

/-- `TruthDAG.EdgeType`. -/
inductive EdgeType where
  | Depends
  | Supports
  | Contradicts
  deriving DecidableEq, Repr

/-- `TruthDAG.EdgeStatus` (`Active` is the first variant, hence the
zero-initialised default of an untouched mapping slot). -/
inductive EdgeStatus where
  | Active
  | Disputed
  | Invalidated
  | Removed
  deriving DecidableEq, Repr

/-- `TruthDAG.Edge`. -/
structure Edge where
  id : Nat
  sourceQuantumId : Nat
  targetQuantumId : Nat
  edgeType : EdgeType
  status : EdgeStatus
  proposer : Nat
  evidenceCid : Nat
  stakeAmount : Nat
  confidence : Nat
  createdAt : Nat
  deriving DecidableEq, Repr

/-- The all-zero `Edge` record a Solidity mapping returns for a key that was
never written. -/
def defaultEdge : Edge :=
  { id := 0, sourceQuantumId := 0, targetQuantumId := 0, edgeType := EdgeType.Depends,
    status := EdgeStatus.Active, proposer := 0, evidenceCid := 0, stakeAmount := 0,
    confidence := 0, createdAt := 0 }

/-- `TruthDAG.PropagatedScore`. -/
structure PropagatedScore where
  chainScore : Nat
  weakestLinkScore : Nat
  weakestLinkEdgeId : Nat
  lastUpdated : Nat
  depth : Nat
  deriving DecidableEq, Repr

/-- The all-zero `PropagatedScore` of an untouched slot. -/
def defaultScore : PropagatedScore :=
  { chainScore := 0, weakestLinkScore := 0, weakestLinkEdgeId := 0, lastUpdated := 0, depth := 0 }

/-- `TruthDAG.WeakLinkFlagData`. -/
structure WeakLinkFlagData where
  flagger : Nat
  flaggedAt : Nat
  resolved : Bool
  rewarded : Bool
  deriving DecidableEq, Repr

/-- The four intrinsic sub-scores a quantum carries on `TruthRegistryV2`. -/
structure TruthScores where
  correspondence : Nat
  coherence : Nat
  convergence : Nat
  pragmatism : Nat
  deriving DecidableEq, Repr

/-- Read-only view of the registry collaborator. -/
structure Registry where
  nextQuantumId : Nat
  quantumScores : Nat → TruthScores

/-- Combined state: the `TruthDAG` contract storage plus its collaborators
(registry view, staking vault, token ledger).  `dagAddr` is the address of
the DAG contract itself (the `msg.sender` the vault sees on internal
calls), `vaultAddr` the vault's address on the token ledger. -/
structure SysState where
  registry : Registry
  vault : VaultState
  token : TokenState
  dagAddr : Nat
  vaultAddr : Nat
  owner : Nat
  nextEdgeId : Nat
  edges : Nat → Edge
  outgoingEdges : Nat → List Nat
  incomingEdges : Nat → List Nat
  propagatedScores : Nat → PropagatedScore
  edgeExists : Nat × Nat × EdgeType → Bool
  weakLinkFlags : Nat → List WeakLinkFlagData
  minEdgeStake : Nat
  propagationFloor : Nat
  propagationDamping : Nat
  contradictionPenalty : Nat
  contradictionFloor : Nat
  weakLinkRewardWindow : Nat
  edgeMaturityPeriod : Nat
  propagationReward : Nat
  edgeSurvivalReward : Nat
  weakLinkBounty : Nat
  weightCorrespondence : Nat
  weightCoherence : Nat
  weightConvergence : Nat
  weightPragmatism : Nat
  edgeRewardClaimed : Nat → Bool

/-- `MAX_CYCLE_CHECK_DEPTH` constant of `TruthDAG`. -/
def MAX_CYCLE_CHECK_DEPTH : Nat := 20

/-- Purpose key of an edge stake: models `keccak256(abi.encode("edge", edgeId))`
(injective, and disjoint from any other key family by collision resistance). -/
def edgeStakeKey (edgeId : Nat) : Nat := edgeId

/-- `TruthDAG._isAcyclic(goal, cur, depth)`: bounded DFS from `cur` along
Active Depends edges (each hop moves from a dependent to one of its
dependencies), returning `false` iff `goal` is reached.  The `fuel`
argument is `MAX_CYCLE_CHECK_DEPTH - depth`; the source's
`depth >= MAX_CYCLE_CHECK_DEPTH ⇒ true` guard is the `fuel = 0` case. -/
def isAcyclicAux (s : SysState) (goal : Nat) : Nat → Nat → Bool
  | 0, _ => true
  | fuel + 1, cur =>
      (s.outgoingEdges cur).all fun eid =>
        let e := s.edges eid
        if e.status ≠ EdgeStatus.Active ∨ e.edgeType ≠ EdgeType.Depends then true
        else if e.sourceQuantumId = goal then false
        else isAcyclicAux s goal fuel e.sourceQuantumId

/-- Bounded reachability along Active Depends edges: `true` iff some
dependency chain of `start` reaches `goal` within `fuel` hops.  This is the
search the spec describes in prose; it is provably the negation of
`isAcyclicAux`. -/
def dependsReachableWithin (s : SysState) (goal : Nat) : Nat → Nat → Bool
  | 0, _ => false
  | fuel + 1, start =>
      (s.outgoingEdges start).any fun eid =>
        let e := s.edges eid
        (e.status == EdgeStatus.Active) && (e.edgeType == EdgeType.Depends) &&
          ((e.sourceQuantumId == goal) || dependsReachableWithin s goal fuel e.sourceQuantumId)

/-- `TruthDAG.createEdge`: validates, locks the proposer's stake, stores the
edge as Active and updates both adjacency lists.  Returns the new state and
the fresh edge id. -/
def createEdge (s : SysState) (caller t srcQ tgtQ : Nat) (ety : EdgeType) (cid conf : Nat) :
    Except Err (SysState × Nat) :=
  if srcQ = tgtQ then Except.error Err.selfReference
  else if ¬ conf ≤ 10000 then Except.error Err.confidenceOutOfRange
  else if ¬ srcQ < s.registry.nextQuantumId then Except.error Err.sourceQuantumMissing
  else if ¬ tgtQ < s.registry.nextQuantumId then Except.error Err.targetQuantumMissing
  else if s.edgeExists (srcQ, tgtQ, ety) = true then Except.error Err.duplicateEdge
  else if ety = EdgeType.Depends ∧ isAcyclicAux s tgtQ MAX_CYCLE_CHECK_DEPTH srcQ = false then
    Except.error Err.cycleDetected
  else
    let key := edgeStakeKey s.nextEdgeId
    let staked := s.vault.stakes caller key
    if staked < s.minEdgeStake then Except.error Err.insufficientStake
    else
      match vLock s.vault s.dagAddr caller key with
      | Except.error e => Except.error e
      | Except.ok v1 =>
          let eid := s.nextEdgeId
          let newEdge : Edge :=
            { id := eid, sourceQuantumId := srcQ, targetQuantumId := tgtQ, edgeType := ety,
              status := EdgeStatus.Active, proposer := caller, evidenceCid := cid,
              stakeAmount := staked, confidence := conf, createdAt := t }
          Except.ok
            ({ s with
                vault := v1,
                nextEdgeId := eid + 1,
                edges := upd s.edges eid newEdge,
                edgeExists := fun k => if k = (srcQ, tgtQ, ety) then true else s.edgeExists k,
                outgoingEdges := upd s.outgoingEdges tgtQ (s.outgoingEdges tgtQ ++ [eid]),
                incomingEdges := upd s.incomingEdges srcQ (s.incomingEdges srcQ ++ [eid]) },
              eid)

/-- Intrinsic score of a quantum: weighted sum of the four registry
sub-scores divided by 10000 (lines computing `intrinsic` in
`propagateScore`). -/
def intrinsicOf (s : SysState) (qid : Nat) : Nat :=
  let q := s.registry.quantumScores qid
  (q.correspondence * s.weightCorrespondence + q.coherence * s.weightCoherence +
      q.convergence * s.weightConvergence + q.pragmatism * s.weightPragmatism) / 10000

/-- Accumulator of `propagateScore`'s first loop over the outgoing edges. -/
structure ScanAcc where
  weakestScore : Nat
  weakestEdgeId : Nat
  depCount : Nat
  contradictionCount : Nat
  deriving DecidableEq, Repr

/-- One iteration of `propagateScore`'s first loop: skip inactive edges,
fold Depends edges into the weakest-link tracking, count Contradicts
edges. -/
def scanStep (s : SysState) (acc : ScanAcc) (eid : Nat) : ScanAcc :=
  let e := s.edges eid
  if e.status ≠ EdgeStatus.Active then acc
  else if e.edgeType = EdgeType.Depends then
    let depChainScore := (s.propagatedScores e.sourceQuantumId).chainScore
    let effective := if depChainScore < e.confidence then depChainScore else e.confidence
    let acc1 : ScanAcc := { acc with depCount := acc.depCount + 1 }
    if effective < acc1.weakestScore then
      { acc1 with weakestScore := effective, weakestEdgeId := e.id }
    else acc1
  else if e.edgeType = EdgeType.Contradicts then
    { acc with contradictionCount := acc.contradictionCount + 1 }
  else acc

/-- The full first loop of `propagateScore` (initial accumulator
`weakestScore = 10000`, `weakestEdgeId = 0`, both counters zero). -/
def scanEdges (s : SysState) (qid : Nat) : ScanAcc :=
  (s.outgoingEdges qid).foldl (scanStep s) ⟨10000, 0, 0, 0⟩

/-- One iteration of `propagateScore`'s depth loop:
`depth = max(depth, depDepth + 1)` over Active Depends edges. -/
def depthStep (s : SysState) (d eid : Nat) : Nat :=
  let e := s.edges eid
  if e.status ≠ EdgeStatus.Active ∨ e.edgeType ≠ EdgeType.Depends then d
  else if (s.propagatedScores e.sourceQuantumId).depth + 1 > d then
    (s.propagatedScores e.sourceQuantumId).depth + 1
  else d

/-- The depth loop of `propagateScore` (only reached when `depCount > 0`). -/
def depthOf (s : SysState) (qid : Nat) : Nat :=
  (s.outgoingEdges qid).foldl (depthStep s) 0

/-- Chain score before the contradiction penalty: the axiom branch stores
the intrinsic score, otherwise the attenuation
`intrinsic * (floor + damping * weakest / 10000) / 10000`; both are cast to
`uint16`. -/
def preContradictionScore (s : SysState) (qid : Nat) : Nat :=
  let intrinsic := intrinsicOf s qid
  let acc := scanEdges s qid
  if acc.depCount = 0 then intrinsic % 65536
  else
    (intrinsic * (s.propagationFloor + s.propagationDamping * acc.weakestScore / 10000) / 10000) %
      65536

/-- The contradiction multiplier of `propagateScore` (lines building
`multiplier` from `penalty`, including the clamp to `contradictionFloor`). -/
def contradictionMultiplier (s : SysState) (count : Nat) : Nat :=
  let penalty := count * s.contradictionPenalty
  let m := if 10000 > penalty then 10000 - penalty else s.contradictionFloor
  if m < s.contradictionFloor then s.contradictionFloor else m

/-- The `PropagatedScore` record `propagateScore` writes for `qid` at
timestamp `t`. -/
def computeRecord (s : SysState) (qid t : Nat) : PropagatedScore :=
  let intrinsic := intrinsicOf s qid
  let acc := scanEdges s qid
  let base := preContradictionScore s qid
  let depth := if acc.depCount = 0 then 0 else depthOf s qid
  let final :=
    if 0 < acc.contradictionCount then
      (base * contradictionMultiplier s acc.contradictionCount / 10000) % 65536
    else base
  { chainScore := final,
    weakestLinkScore := if 0 < acc.depCount then acc.weakestScore else intrinsic % 65536,
    weakestLinkEdgeId := acc.weakestEdgeId,
    lastUpdated := t,
    depth := depth }

/-- `TruthDAG.propagateScore`: recompute and store `qid`'s record, then mint
the propagation reward to the caller.  The function has no `require`, so it
is total. -/
def propagateScore (s : SysState) (caller qid t : Nat) : SysState :=
  { s with
      propagatedScores := upd s.propagatedScores qid (computeRecord s qid t),
      token := mintTok s.token caller s.propagationReward }

/-- `TruthDAG._processWeakLinkRewards`: mark every unresolved flag resolved;
flags whose flagging time is within the reward window of `t` are marked
rewarded and earn the flagger the bounty. -/
def processFlags (window bounty t : Nat) (tk : TokenState) :
    List WeakLinkFlagData → List WeakLinkFlagData × TokenState
  | [] => ([], tk)
  | f :: rest =>
      if f.resolved = true then
        let (l, tk1) := processFlags window bounty t tk rest
        (f :: l, tk1)
      else
        let hit := t ≤ f.flaggedAt + window
        let f1 : WeakLinkFlagData :=
          { f with resolved := true, rewarded := if hit then true else f.rewarded }
        let tk1 := if hit then mintTok tk f.flagger bounty else tk
        let (l, tk2) := processFlags window bounty t tk1 rest
        (f1 :: l, tk2)

/-- `TruthDAG.disputeEdge`: mark the Active edge Disputed, slash the
proposer's edge stake by 1000 bps, transfer 60% of the remaining record to
the challenger's external balance, mint the challenger the fixed reward,
and resolve pending weak-link flags. -/
def disputeEdge (s : SysState) (caller eid t : Nat) : Except Err SysState :=
  let e := s.edges eid
  if e.status ≠ EdgeStatus.Active then Except.error Err.edgeNotActive
  else if e.proposer = caller then Except.error Err.cannotDisputeOwn
  else
    let key := edgeStakeKey eid
    match vSlash s.vault s.dagAddr e.proposer key 1000 with
    | Except.error err => Except.error err
    | Except.ok v1 =>
        let remainingStake := v1.stakes e.proposer key
        let challengerReward := remainingStake * 6000 / 10000
        let step2 : Except Err (VaultState × TokenState) :=
          if 0 < challengerReward then
            vTransferStake v1 s.token s.vaultAddr s.dagAddr e.proposer key caller challengerReward
          else Except.ok (v1, s.token)
        match step2 with
        | Except.error err => Except.error err
        | Except.ok (v2, tk2) =>
            let tk3 := mintTok tk2 caller s.edgeSurvivalReward
            let (flags1, tk4) :=
              processFlags s.weakLinkRewardWindow s.weakLinkBounty t tk3 (s.weakLinkFlags eid)
            Except.ok
              { s with
                  vault := v2,
                  token := tk4,
                  edges := upd s.edges eid { e with status := EdgeStatus.Disputed },
                  weakLinkFlags := upd s.weakLinkFlags eid flags1 }

/-- `TruthDAG.flagWeakLink`: the edge record must read Active; append an
unresolved, unrewarded flag. -/
def flagWeakLink (s : SysState) (caller eid t : Nat) : Except Err SysState :=
  let e := s.edges eid
  if e.status = EdgeStatus.Active then
    Except.ok
      { s with
          weakLinkFlags :=
            upd s.weakLinkFlags eid
              (s.weakLinkFlags eid ++ [{ flagger := caller, flaggedAt := t,
                                         resolved := false, rewarded := false }]) }
  else Except.error Err.edgeNotActive

/-- `TruthDAG.setConfig`: owner-only; overwrites the ten runtime
configuration values with no validation of any of them. -/
def setConfig (s : SysState) (caller a1 a2 a3 a4 a5 a6 a7 a8 a9 a10 : Nat) :
    Except Err SysState :=
  if caller = s.owner then
    Except.ok
      { s with
          minEdgeStake := a1, propagationFloor := a2, propagationDamping := a3,
          contradictionPenalty := a4, contradictionFloor := a5,
          weakLinkRewardWindow := a6, edgeMaturityPeriod := a7,
          propagationReward := a8, edgeSurvivalReward := a9, weakLinkBounty := a10 }
  else Except.error Err.notOwner

/-- `TruthDAG.setWeights`: owner-only; the four weights must sum to 10000. -/
def setWeights (s : SysState) (caller w1 w2 w3 w4 : Nat) : Except Err SysState :=
  if caller = s.owner then
    if w1 + w2 + w3 + w4 = 10000 then
      Except.ok
        { s with
            weightCorrespondence := w1, weightCoherence := w2,
            weightConvergence := w3, weightPragmatism := w4 }
    else Except.error Err.weightsMustSum
  else Except.error Err.notOwner

/-- One hop of a dependency chain: `a` depends on `b` through some Active
Depends edge listed in `a`'s adjacency list. -/
def activeDependsStep (s : SysState) (a b : Nat) : Prop :=
  ∃ eid, eid ∈ s.outgoingEdges a ∧ (s.edges eid).status = EdgeStatus.Active ∧
    (s.edges eid).edgeType = EdgeType.Depends ∧ (s.edges eid).sourceQuantumId = b

/-- Dependency walks: `DWalk s a b n` means `n` consecutive Active Depends
hops lead from `a` to `b`.  A cycle is a walk from a node back to itself of
positive length. -/
inductive DWalk (s : SysState) : Nat → Nat → Nat → Prop where
  | nil (a : Nat) : DWalk s a a 0
  | cons {a b c n : Nat} : activeDependsStep s a b → DWalk s b c n → DWalk s a c (n + 1)

/-- No dependency cycle short enough for the bounded DFS to be responsible
for it: no Active Depends walk of between 1 and
`MAX_CYCLE_CHECK_DEPTH + 1` hops returns to its start. -/
def NoShortCycle (s : SysState) : Prop :=
  ∀ a n, 1 ≤ n → n ≤ MAX_CYCLE_CHECK_DEPTH + 1 → ¬ DWalk s a a n

/-- Adjacency lists only hold ids of edges that have been created. -/
def adjBounded (s : SysState) : Prop :=
  ∀ a eid, eid ∈ s.outgoingEdges a → eid < s.nextEdgeId

/-- The structural invariant maintained by the engine's edge insertion. -/
def GoodState (s : SysState) : Prop :=
  adjBounded s ∧ NoShortCycle s

/-- Arguments of one `createEdge` transaction. -/
structure CreateCall where
  caller : Nat
  time : Nat
  srcQ : Nat
  tgtQ : Nat
  ety : EdgeType
  cid : Nat
  conf : Nat
  deriving Repr

/-- Run a sequence of `createEdge` transactions with the ledger's revert
semantics: a rejected call leaves the state unchanged. -/
def runCreates (s : SysState) : List CreateCall → SysState
  | [] => s
  | c :: rest =>
      match createEdge s c.caller c.time c.srcQ c.tgtQ c.ety c.cid c.conf with
      | Except.ok (s1, _) => runCreates s1 rest
      | Except.error _ => runCreates s rest

/-- Run a sequence of `createEdge` transactions, returning `none` if any of
them is rejected (so `some` certifies every call was accepted). -/
def runCreatesOpt (s : SysState) : List CreateCall → Option SysState
  | [] => some s
  | c :: rest =>
      match createEdge s c.caller c.time c.srcQ c.tgtQ c.ety c.cid c.conf with
      | Except.ok (s1, _) => runCreatesOpt s1 rest
      | Except.error _ => none

/-- Executable test for one dependency hop (mirrors `activeDependsStep`). -/
def isDependsStepB (s : SysState) (a b : Nat) : Bool :=
  (s.outgoingEdges a).any fun eid =>
    ((s.edges eid).status == EdgeStatus.Active) && ((s.edges eid).edgeType == EdgeType.Depends) &&
      ((s.edges eid).sourceQuantumId == b)

/-- Executable test that consecutive entries of `p` are dependency hops. -/
def isDependsPathB (s : SysState) : List Nat → Bool
  | [] => true
  | [_] => true
  | a :: b :: rest => isDependsStepB s a b && isDependsPathB s (b :: rest)

/-- Executable test that `p` exhibits an Active Depends cycle: at least one
hop, closed, every hop real. -/
def isDependsCycleB (s : SysState) (p : List Nat) : Bool :=
  decide (2 ≤ p.length) && (p.head? == p.getLast?) && isDependsPathB s p

/-- A freshly deployed system: empty DAG, empty vault records, zero token
balances, the constructor/default configuration of both contracts.  The
DAG contract (address 1) is authorized on the vault (address 3); address 5
deployed the DAG and owns it. -/
def baseState : SysState :=
  { registry := { nextQuantumId := 100, quantumScores := fun _ => ⟨0, 0, 0, 0⟩ },
    vault := { stakes := fun _ _ => 0, locked := fun _ _ => false,
               authorized := fun a => a == 1, vaultOwner := 0 },
    token := { balances := fun _ => 0 },
    dagAddr := 1,
    vaultAddr := 3,
    owner := 5,
    nextEdgeId := 0,
    edges := fun _ => defaultEdge,
    outgoingEdges := fun _ => [],
    incomingEdges := fun _ => [],
    propagatedScores := fun _ => defaultScore,
    edgeExists := fun _ => false,
    weakLinkFlags := fun _ => [],
    minEdgeStake := 10000000000000000000,
    propagationFloor := 3000,
    propagationDamping := 7000,
    contradictionPenalty := 1500,
    contradictionFloor := 4000,
    weakLinkRewardWindow := 2592000,
    edgeMaturityPeriod := 604800,
    propagationReward := 2000000000000000000,
    edgeSurvivalReward := 20000000000000000000,
    weakLinkBounty := 100000000000000000000,
    weightCorrespondence := 3000,
    weightCoherence := 2500,
    weightConvergence := 2500,
    weightPragmatism := 2000,
    edgeRewardClaimed := fun _ => false }

/-- Fresh deployment in which address 2 has pre-staked the minimum edge
stake under every purpose key (enough collateral for any run of edge
creations). -/
def c1Init : SysState :=
  { baseState with
      vault := { baseState.vault with stakes := fun _ _ => 10000000000000000000 } }

/-- 22 `createEdge` calls: a 21-hop dependency chain
`0 → 1 → ... → 21` (call `i` creates the edge making quantum `i` depend on
quantum `i+1`), then one closing edge making 21 depend on 0. -/
def c1Calls : List CreateCall :=
  ((List.range 21).map fun i =>
    { caller := 2, time := 0, srcQ := i + 1, tgtQ := i, ety := EdgeType.Depends,
      cid := 0, conf := 5000 }) ++
  [{ caller := 2, time := 0, srcQ := 0, tgtQ := 21, ety := EdgeType.Depends,
     cid := 0, conf := 5000 }]

/-- The 22-hop dependency cycle `21 → 0 → 1 → ... → 20 → 21` that the calls
of `c1Calls` produce. -/
def c1Path : List Nat := 21 :: (List.range 21 ++ [21])

/-- `true` iff every call of `c1Calls` is accepted and the resulting Active
Depends edges contain the cycle `c1Path`. -/
def c1CycleFound : Bool :=
  match runCreatesOpt c1Init c1Calls with
  | some s => isDependsCycleB s c1Path
  | none => false

/-- An Active Depends edge `1 depends on 2`, proposed by address 4 with the
minimum stake and confidence 9000. -/
def chainEdge0 : Edge :=
  { id := 0, sourceQuantumId := 2, targetQuantumId := 1, edgeType := EdgeType.Depends,
    status := EdgeStatus.Active, proposer := 4, evidenceCid := 0,
    stakeAmount := 10000000000000000000, confidence := 9000, createdAt := 0 }

/-- An Active Depends edge `2 depends on 3`. -/
def chainEdge1 : Edge :=
  { id := 1, sourceQuantumId := 3, targetQuantumId := 2, edgeType := EdgeType.Depends,
    status := EdgeStatus.Active, proposer := 4, evidenceCid := 0,
    stakeAmount := 10000000000000000000, confidence := 9000, createdAt := 0 }

/-- State holding the two-hop dependency chain `1 → 2 → 3` (quantum 1
depends on 2, which depends on 3), with every caller amply staked. -/
def cs2 : SysState :=
  { baseState with
      nextEdgeId := 2,
      edges := upd (upd baseState.edges 0 chainEdge0) 1 chainEdge1,
      outgoingEdges := upd (upd baseState.outgoingEdges 1 [0]) 2 [1],
      incomingEdges := upd (upd baseState.incomingEdges 2 [0]) 3 [1],
      edgeExists := fun k =>
        (k == ((2 : Nat), (1 : Nat), EdgeType.Depends)) ||
          (k == ((3 : Nat), (2 : Nat), EdgeType.Depends)),
      vault := { baseState.vault with stakes := fun _ _ => 10000000000000000000 } }

/-- State with a single Active edge (id 0, proposer 4) whose backing stake
record holds exactly the 10-token minimum, locked; the vault's token
balance covers it; no weak-link flags. -/
def c3S : SysState :=
  { baseState with
      nextEdgeId := 1,
      edges := upd baseState.edges 0 chainEdge0,
      outgoingEdges := upd baseState.outgoingEdges 1 [0],
      incomingEdges := upd baseState.incomingEdges 2 [0],
      edgeExists := fun k => k == ((2 : Nat), (1 : Nat), EdgeType.Depends),
      vault := { baseState.vault with
                   stakes := upd2 (fun _ _ => 0) 4 (edgeStakeKey 0) 10000000000000000000,
                   locked := upd2 (fun _ _ => false) 4 (edgeStakeKey 0) true },
      token := { balances := upd (fun _ => 0) 3 10000000000000000000 } }

/-- State whose quantum 1 has intrinsic sub-scores 8200 across the board,
one Active Depends edge of confidence 9000 on quantum 2, and quantum 2's
stored chain score equal to 8200 (the attenuation example of the spec). -/
def c5S : SysState :=
  { baseState with
      nextEdgeId := 1,
      edges := upd baseState.edges 0 chainEdge0,
      outgoingEdges := upd baseState.outgoingEdges 1 [0],
      incomingEdges := upd baseState.incomingEdges 2 [0],
      edgeExists := fun k => k == ((2 : Nat), (1 : Nat), EdgeType.Depends),
      propagatedScores :=
        upd baseState.propagatedScores 2
          { chainScore := 8200, weakestLinkScore := 8200, weakestLinkEdgeId := 0,
            lastUpdated := 0, depth := 0 },
      registry := { nextQuantumId := 100,
                    quantumScores := fun q =>
                      if q = 1 then ⟨8200, 8200, 8200, 8200⟩ else ⟨0, 0, 0, 0⟩ } }

/-- The edge of `c5S` turned into a Contradicts assertion. -/
def contraEdge0 : Edge := { chainEdge0 with edgeType := EdgeType.Contradicts }

/-- State whose quantum 1 has intrinsic score 8200, zero Depends edges and
one Active Contradicts edge. -/
def c4S : SysState :=
  { baseState with
      nextEdgeId := 1,
      edges := upd baseState.edges 0 contraEdge0,
      outgoingEdges := upd baseState.outgoingEdges 1 [0],
      incomingEdges := upd baseState.incomingEdges 2 [0],
      edgeExists := fun k => k == ((2 : Nat), (1 : Nat), EdgeType.Contradicts),
      registry := { nextQuantumId := 100,
                    quantumScores := fun q =>
                      if q = 1 then ⟨8200, 8200, 8200, 8200⟩ else ⟨0, 0, 0, 0⟩ } }

/-- Vault for the stake round-trip witness: empty records. -/
def c7V : VaultState :=
  { stakes := fun _ _ => 0, locked := fun _ _ => false,
    authorized := fun a => a == 1, vaultOwner := 0 }

/-- Token ledger for the stake round-trip witness: owner 8 holds 100. -/
def c7T : TokenState :=
  { balances := fun a => if a = 8 then 100 else 0 }

/-- Slash outcome on a stake of `S` at 1000 basis points. -/
def postSlash (S : Nat) : Nat := S - S * 1000 / 10000

/-- The stake transfer a challenger receives: 60% (floor) of the post-slash
remainder. -/
def challengerCut (S : Nat) : Nat := postSlash S * 6000 / 10000

theorem upd_self {α : Type} (f : Nat → α) (k : Nat) (v : α) : upd f k v k = v := by
  simp [upd]

theorem upd_other {α : Type} (f : Nat → α) (k : Nat) (v : α) {x : Nat} (h : x ≠ k) :
    upd f k v x = f x := by
  simp [upd, h]

theorem upd2_self {α : Type} (f : Nat → Nat → α) (a k : Nat) (v : α) : upd2 f a k v a k = v := by
  simp [upd2]

theorem dwalk_zero {s : SysState} {a b : Nat} (h : DWalk s a b 0) : a = b := by
  cases h
  rfl

theorem dwalk_trans {s : SysState} {a b c p q : Nat} (h1 : DWalk s a b p) (h2 : DWalk s b c q) :
    DWalk s a c (p + q) := by
  induction h1 with
  | nil _ => simpa using h2
  | cons st _ ih =>
      have := DWalk.cons st (ih h2)
      simpa [Nat.succ_add] using this

/-- `dependsReachableWithin` is exactly the existence of a dependency walk
of between 1 and `fuel` hops. -/
theorem reach_iff_walk (s : SysState) (goal : Nat) :
    ∀ fuel start, dependsReachableWithin s goal fuel start = true ↔
      ∃ n, 1 ≤ n ∧ n ≤ fuel ∧ DWalk s start goal n := by
  intro fuel
  induction fuel with
  | zero =>
      intro start
      simp only [dependsReachableWithin]
      constructor
      · intro h
        exact absurd h (by simp)
      · rintro ⟨n, h1, h2, -⟩
        omega
  | succ f ih =>
      intro start
      simp only [dependsReachableWithin, List.any_eq_true]
      constructor
      · rintro ⟨eid, hmem, hq⟩
        simp only [Bool.and_eq_true, Bool.or_eq_true, beq_iff_eq] at hq
        obtain ⟨⟨hst, hty⟩, hlast⟩ := hq
        cases hlast with
        | inl hgoal =>
            exact ⟨1, le_refl 1, by omega,
              DWalk.cons ⟨eid, hmem, hst, hty, hgoal⟩ (DWalk.nil goal)⟩
        | inr hrec =>
            obtain ⟨n, hn1, hn2, w⟩ := (ih _).mp hrec
            exact ⟨n + 1, by omega, by omega, DWalk.cons ⟨eid, hmem, hst, hty, rfl⟩ w⟩
      · rintro ⟨n, hn1, hn2, w⟩
        cases w with
        | nil _ => omega
        | cons st w' =>
            obtain ⟨eid, hmem, hst, hty, hsrc⟩ := st
            refine ⟨eid, hmem, ?_⟩
            simp only [Bool.and_eq_true, Bool.or_eq_true, beq_iff_eq]
            refine ⟨⟨hst, hty⟩, ?_⟩
            rename_i b m
            by_cases hm : m = 0
            · subst hm
              exact Or.inl (hsrc.trans (dwalk_zero w'))
            · refine Or.inr ?_
              rw [hsrc]
              exact (ih _).mpr ⟨m, by omega, by omega, w'⟩

/-- The contract's bounded DFS is the negation of bounded reachability. -/
theorem isAcyclicAux_eq_not_reach (s : SysState) (goal : Nat) :
    ∀ fuel cur, isAcyclicAux s goal fuel cur = !dependsReachableWithin s goal fuel cur := by
  intro fuel
  induction fuel with
  | zero => intro cur; rfl
  | succ f ih =>
      intro cur
      simp only [isAcyclicAux, dependsReachableWithin]
      induction s.outgoingEdges cur with
      | nil => rfl
      | cons eid rest ihl =>
          simp only [List.all_cons, List.any_cons, Bool.not_or, ← ihl]
          congr 1
          by_cases hst : (s.edges eid).status = EdgeStatus.Active
          · by_cases hty : (s.edges eid).edgeType = EdgeType.Depends
            · by_cases hg : (s.edges eid).sourceQuantumId = goal
              · simp [hst, hty, hg]
              · simp [hst, hty, hg, ih]
            · simp [hst, hty]
          · simp [hst]

theorem vLock_error_inv {v : VaultState} {c u k : Nat} {e : Err}
    (h : vLock v c u k = Except.error e) : e = Err.notAuthorized := by
  unfold vLock at h
  split at h
  · exact absurd h (by simp)
  · injection h with h1
    exact h1.symm

/-- C2 (counterexample): in the chain `1 depends on 2 depends on 3`, the
claim's check (start at the target, look for the source) finds source 3
from target 1 within the bound, so it predicts `createEdge(source 3,
target 1)` is rejected with CycleDetected; the engine accepts the call
(it creates edge id 2 — the edge is merely redundant, not cyclic). -/
theorem c2_counterexample :
    dependsReachableWithin cs2 3 MAX_CYCLE_CHECK_DEPTH 1 = true ∧
    (createEdge cs2 9 50 3 1 EdgeType.Depends 0 5000).toOption.map (fun p => p.2) = some 2 := by
  constructor
  · decide
  · decide

/-- C2 (amended): for a Depends edge passing the earlier validations, the
call is rejected with CycleDetected exactly when the bounded search that
starts at the SOURCE node, follows Active Depends edges outward along the
source's own dependencies, finds the TARGET node within depth
`MAX_CYCLE_CHECK_DEPTH`; equivalently, exactly when a dependency walk of
between 1 and 20 hops leads from the source to the target.  Beyond the
bound the engine assumes no cycle exists. -/
theorem c2_cycleCheckDirection (s : SysState) (caller t srcQ tgtQ cid conf : Nat)
    (h1 : srcQ ≠ tgtQ) (h2 : conf ≤ 10000) (h3 : srcQ < s.registry.nextQuantumId)
    (h4 : tgtQ < s.registry.nextQuantumId)
    (h5 : s.edgeExists (srcQ, tgtQ, EdgeType.Depends) = false) :
    (createEdge s caller t srcQ tgtQ EdgeType.Depends cid conf = Except.error Err.cycleDetected ↔
        dependsReachableWithin s tgtQ MAX_CYCLE_CHECK_DEPTH srcQ = true) ∧
    (dependsReachableWithin s tgtQ MAX_CYCLE_CHECK_DEPTH srcQ = true ↔
        ∃ n, 1 ≤ n ∧ n ≤ MAX_CYCLE_CHECK_DEPTH ∧ DWalk s srcQ tgtQ n) := by
  refine ⟨?_, reach_iff_walk s tgtQ MAX_CYCLE_CHECK_DEPTH srcQ⟩
  unfold createEdge
  rw [if_neg h1, if_neg (not_not_intro h2), if_neg (not_not_intro h3),
    if_neg (not_not_intro h4), if_neg (by simp [h5]), isAcyclicAux_eq_not_reach]
  by_cases hr : dependsReachableWithin s tgtQ MAX_CYCLE_CHECK_DEPTH srcQ = true
  · rw [if_pos ⟨rfl, by simp [hr]⟩]
    simp [hr]
  · have hrf : dependsReachableWithin s tgtQ MAX_CYCLE_CHECK_DEPTH srcQ = false :=
      Bool.eq_false_iff.mpr hr
    rw [if_neg (fun hc => by simp [hrf] at hc)]
    rw [hrf]
    constructor
    · intro h
      exfalso
      dsimp only [] at h
      split at h
      · exact absurd h (by simp)
      · split at h
        · rename_i e he
          injection h with h1
          exact absurd (vLock_error_inv he) (by rw [h1]; decide)
        · exact absurd h (by simp)
    · intro h
      simp at h

/-- C2 (witness for the amended theorem): in the chain `1 depends on 2
depends on 3`, creating the edge `3 depends on 1` is rejected with
CycleDetected, because the target 3 is reachable from the source 1. -/
theorem c2_witness :
    createEdge cs2 9 50 1 3 EdgeType.Depends 0 5000 = Except.error Err.cycleDetected :=
  (c2_cycleCheckDirection cs2 9 50 1 3 0 5000 (by decide) (by decide) (by decide) (by decide)
      (by decide)).1.mpr (by decide)

/-- C5 (confirmed): with intrinsic score 8200, a single Active Depends edge
of confidence 9000 whose dependency's stored chain score is 8200 and no
Active Contradicts edges, propagation stores effective strength
min(8200, 9000) = 8200 as the weakest-link score and chain score
floor(8200 * (3000 + 7000*8200/10000) / 10000) = 7166 under the default
floor/damping configuration. -/
theorem c5_attenuationExample :
    intrinsicOf c5S 1 = 8200 ∧
    ((propagateScore c5S 9 1 100).propagatedScores 1).weakestLinkScore = 8200 ∧
    ((propagateScore c5S 9 1 100).propagatedScores 1).chainScore = 7166 := by
  refine ⟨by decide, by decide, by decide⟩

/-- C10 (confirmed): flagging an edge id that was never created does not
fail: the zero-initialised edge record reads status Active (the first enum
variant), so the status check passes and an unresolved, unrewarded flag is
appended for the nonexistent edge. -/
theorem c10_flagNonexistentEdge (s : SysState) (caller eid t : Nat)
    (hzero : ∀ i, s.nextEdgeId ≤ i → s.edges i = defaultEdge)
    (hi : s.nextEdgeId ≤ eid) :
    flagWeakLink s caller eid t =
      Except.ok
        { s with
            weakLinkFlags :=
              upd s.weakLinkFlags eid
                (s.weakLinkFlags eid ++ [{ flagger := caller, flaggedAt := t,
                                           resolved := false, rewarded := false }]) } := by
  unfold flagWeakLink
  rw [hzero eid hi]
  rfl

/-- C10 (witness): on a fresh deployment (no edge was ever created),
flagging edge id 5 succeeds and appends the flag. -/
theorem c10_witness :
    flagWeakLink baseState 7 5 100 =
      Except.ok
        { baseState with
            weakLinkFlags :=
              upd baseState.weakLinkFlags 5
                (baseState.weakLinkFlags 5 ++ [{ flagger := 7, flaggedAt := 100,
                                                 resolved := false, rewarded := false }]) } :=
  c10_flagNonexistentEdge baseState 7 5 100 (fun _ _ => rfl) (by decide)

/-- C9 (counterexample): the owner writes a propagation floor of 20000
basis points — far outside the documented [0, 10000] range — and `setConfig`
accepts it and stores it, so the claim that every configuration write is
validated is false. -/
theorem c9_counterexample :
    (setConfig baseState 5 1 20000 20000 20000 20000 0 0 0 0 0).toOption.map
        (fun s => s.propagationFloor) = some 20000 := by
  decide

/-- C9 (amended): every runtime-adjustable configuration value is settable
only by the privileged administrator (a write by anyone else is rejected
with no state change), and the four intrinsic-score weights are validated
to sum to 10000 on write; the remaining configuration values accepted by
`setConfig` are stored without any range validation. -/
theorem c9_adminOnlyConfig (s : SysState)
    (caller a1 a2 a3 a4 a5 a6 a7 a8 a9 a10 w1 w2 w3 w4 : Nat) :
    (caller ≠ s.owner →
      setConfig s caller a1 a2 a3 a4 a5 a6 a7 a8 a9 a10 = Except.error Err.notOwner) ∧
    (caller ≠ s.owner → setWeights s caller w1 w2 w3 w4 = Except.error Err.notOwner) ∧
    (caller = s.owner → w1 + w2 + w3 + w4 ≠ 10000 →
      setWeights s caller w1 w2 w3 w4 = Except.error Err.weightsMustSum) ∧
    (caller = s.owner → w1 + w2 + w3 + w4 = 10000 →
      setWeights s caller w1 w2 w3 w4 =
        Except.ok
          { s with weightCorrespondence := w1, weightCoherence := w2,
                   weightConvergence := w3, weightPragmatism := w4 }) ∧
    (caller = s.owner →
      setConfig s caller a1 a2 a3 a4 a5 a6 a7 a8 a9 a10 =
        Except.ok
          { s with minEdgeStake := a1, propagationFloor := a2, propagationDamping := a3,
                   contradictionPenalty := a4, contradictionFloor := a5,
                   weakLinkRewardWindow := a6, edgeMaturityPeriod := a7,
                   propagationReward := a8, edgeSurvivalReward := a9, weakLinkBounty := a10 }) := by
  refine ⟨?_, ?_, ?_, ?_, ?_⟩
  · intro h
    simp [setConfig, h]
  · intro h
    simp [setWeights, h]
  · intro h hw
    simp [setWeights, h, hw]
  · intro h hw
    simp [setWeights, h, hw]
  · intro h
    simp [setConfig, h]

/-- C9 (witness): a non-owner's `setConfig` and `setWeights` are rejected;
the owner's `setWeights` with weights summing to 9990 is rejected; the
owner's valid `setWeights` succeeds. -/
theorem c9_witness :
    setConfig baseState 7 0 0 0 0 0 0 0 0 0 0 = Except.error Err.notOwner ∧
    setWeights baseState 7 3000 2500 2500 2000 = Except.error Err.notOwner ∧
    setWeights baseState 5 3000 2500 2500 1990 = Except.error Err.weightsMustSum ∧
    setWeights baseState 5 2500 2500 2500 2500 =
      Except.ok
        { baseState with weightCorrespondence := 2500, weightCoherence := 2500,
                         weightConvergence := 2500, weightPragmatism := 2500 } :=
  ⟨(c9_adminOnlyConfig baseState 7 0 0 0 0 0 0 0 0 0 0 3000 2500 2500 2000).1 (by decide),
   (c9_adminOnlyConfig baseState 7 0 0 0 0 0 0 0 0 0 0 3000 2500 2500 2000).2.1 (by decide),
   (c9_adminOnlyConfig baseState 5 0 0 0 0 0 0 0 0 0 0 3000 2500 2500 1990).2.2.1 (by decide)
     (by decide),
   (c9_adminOnlyConfig baseState 5 0 0 0 0 0 0 0 0 0 0 2500 2500 2500 2500).2.2.2.1 (by decide)
     (by decide)⟩

theorem propagateScore_stored (s : SysState) (caller qid t : Nat) :
    (propagateScore s caller qid t).propagatedScores qid = computeRecord s qid t := by
  simp [propagateScore, upd_self]

/-- The scan loop leaves the accumulator untouched when the list holds no
Active Depends and no Active Contradicts edge. -/
theorem scan_foldl_inert (s : SysState) (l : List Nat)
    (hdep : ∀ eid ∈ l, ¬((s.edges eid).status = EdgeStatus.Active ∧
      (s.edges eid).edgeType = EdgeType.Depends))
    (hcon : ∀ eid ∈ l, ¬((s.edges eid).status = EdgeStatus.Active ∧
      (s.edges eid).edgeType = EdgeType.Contradicts)) :
    ∀ acc, l.foldl (scanStep s) acc = acc := by
  induction l with
  | nil => intro acc; rfl
  | cons a l ih =>
      intro acc
      have ha := hdep a (List.mem_cons_self a l)
      have hc := hcon a (List.mem_cons_self a l)
      have hstep : scanStep s acc a = acc := by
        unfold scanStep
        by_cases hst : (s.edges a).status = EdgeStatus.Active
        · have h1 : ¬(s.edges a).edgeType = EdgeType.Depends := fun h => ha ⟨hst, h⟩
          have h2 : ¬(s.edges a).edgeType = EdgeType.Contradicts := fun h => hc ⟨hst, h⟩
          simp [hst, h1, h2]
        · simp [hst]
      rw [List.foldl_cons, hstep]
      exact ih (fun e he => hdep e (List.mem_cons_of_mem a he))
        (fun e he => hcon e (List.mem_cons_of_mem a he)) acc

theorem intrinsicOf_le (s : SysState) (qid : Nat)
    (h1 : (s.registry.quantumScores qid).correspondence ≤ 10000)
    (h2 : (s.registry.quantumScores qid).coherence ≤ 10000)
    (h3 : (s.registry.quantumScores qid).convergence ≤ 10000)
    (h4 : (s.registry.quantumScores qid).pragmatism ≤ 10000)
    (hw : s.weightCorrespondence + s.weightCoherence + s.weightConvergence +
      s.weightPragmatism = 10000) :
    intrinsicOf s qid ≤ 10000 := by
  unfold intrinsicOf
  have hnum : (s.registry.quantumScores qid).correspondence * s.weightCorrespondence +
      (s.registry.quantumScores qid).coherence * s.weightCoherence +
      (s.registry.quantumScores qid).convergence * s.weightConvergence +
      (s.registry.quantumScores qid).pragmatism * s.weightPragmatism ≤ 10000 * 10000 := by
    calc (s.registry.quantumScores qid).correspondence * s.weightCorrespondence +
        (s.registry.quantumScores qid).coherence * s.weightCoherence +
        (s.registry.quantumScores qid).convergence * s.weightConvergence +
        (s.registry.quantumScores qid).pragmatism * s.weightPragmatism ≤
        10000 * s.weightCorrespondence + 10000 * s.weightCoherence +
          10000 * s.weightConvergence + 10000 * s.weightPragmatism := by
          gcongr
      _ = 10000 * (s.weightCorrespondence + s.weightCoherence + s.weightConvergence +
            s.weightPragmatism) := by ring
      _ = 10000 * 10000 := by rw [hw]
  calc _ ≤ 10000 * 10000 / 10000 := Nat.div_le_div_right hnum
    _ = 10000 := by norm_num

/-- C4 (counterexample): quantum 1 of `c4S` has zero Active Depends edges
(so the claim's premise holds) but one Active Contradicts edge; after
propagation the stored chain score is 6970 = 8200 * 8500 / 10000, not the
intrinsic score 8200 the claim asserts. -/
theorem c4_counterexample :
    (∀ eid ∈ c4S.outgoingEdges 1, ¬((c4S.edges eid).status = EdgeStatus.Active ∧
      (c4S.edges eid).edgeType = EdgeType.Depends)) ∧
    ((propagateScore c4S 9 1 100).propagatedScores 1).depth = 0 ∧
    ((propagateScore c4S 9 1 100).propagatedScores 1).chainScore = 6970 ∧
    intrinsicOf c4S 1 = 8200 := by
  refine ⟨by decide, by decide, by decide, by decide⟩

/-- C4 (amended): for every claim with zero Active Depends edges AND zero
Active Contradicts edges (and registry sub-scores in range, weights summing
to 10000), propagation stores chain score equal to the intrinsic score and
depth 0. -/
theorem c4_noDepsIntrinsic (s : SysState) (caller qid t : Nat)
    (hdep : ∀ eid ∈ s.outgoingEdges qid, ¬((s.edges eid).status = EdgeStatus.Active ∧
      (s.edges eid).edgeType = EdgeType.Depends))
    (hcon : ∀ eid ∈ s.outgoingEdges qid, ¬((s.edges eid).status = EdgeStatus.Active ∧
      (s.edges eid).edgeType = EdgeType.Contradicts))
    (h1 : (s.registry.quantumScores qid).correspondence ≤ 10000)
    (h2 : (s.registry.quantumScores qid).coherence ≤ 10000)
    (h3 : (s.registry.quantumScores qid).convergence ≤ 10000)
    (h4 : (s.registry.quantumScores qid).pragmatism ≤ 10000)
    (hw : s.weightCorrespondence + s.weightCoherence + s.weightConvergence +
      s.weightPragmatism = 10000) :
    ((propagateScore s caller qid t).propagatedScores qid).chainScore = intrinsicOf s qid ∧
    ((propagateScore s caller qid t).propagatedScores qid).depth = 0 := by
  have hscan : scanEdges s qid = ⟨10000, 0, 0, 0⟩ :=
    scan_foldl_inert s (s.outgoingEdges qid) hdep hcon _
  have hlt : intrinsicOf s qid < 65536 :=
    lt_of_le_of_lt (intrinsicOf_le s qid h1 h2 h3 h4 hw) (by norm_num)
  rw [propagateScore_stored]
  unfold computeRecord preContradictionScore
  dsimp only []
  rw [hscan]
  simp [Nat.mod_eq_of_lt hlt]

/-- C4 (witness for the amended theorem): on a fresh deployment quantum 1
has no edges at all; propagation stores its intrinsic score and depth 0. -/
theorem c4_witness :
    ((propagateScore baseState 9 1 100).propagatedScores 1).chainScore =
      intrinsicOf baseState 1 ∧
    ((propagateScore baseState 9 1 100).propagatedScores 1).depth = 0 :=
  c4_noDepsIntrinsic baseState 9 1 100 (by decide) (by decide) (by decide) (by decide)
    (by decide) (by decide) (by decide)

theorem contradictionMultiplier_eq_max (s : SysState) (count : Nat) :
    contradictionMultiplier s count =
      max s.contradictionFloor (10000 - count * s.contradictionPenalty) := by
  unfold contradictionMultiplier
  dsimp only []
  by_cases h : 10000 > count * s.contradictionPenalty
  · rw [if_pos h]
    rcases le_or_lt s.contradictionFloor (10000 - count * s.contradictionPenalty) with hle | hlt
    · rw [if_neg (not_lt.mpr hle), Nat.max_eq_right hle]
    · rw [if_pos hlt, Nat.max_eq_left (le_of_lt hlt)]
  · rw [if_neg h]
    have h0 : 10000 - count * s.contradictionPenalty = 0 := by omega
    rw [h0, Nat.max_eq_left (Nat.zero_le _), if_neg (lt_irrefl _)]

/-- C6 (confirmed): with `n ≥ 1` Active Contradicts edges the stored chain
score is the otherwise-computed score multiplied by
`max(contradictionFloor, 10000 - n * contradictionPenalty) / 10000`; under
the default penalty 1500 and floor 4000 one contradiction gives multiplier
8500, and the multiplier never falls below the 4000 floor. -/
theorem c6_contradictionPenalty (s : SysState) (caller qid t : Nat)
    (hfl : s.contradictionFloor ≤ 10000)
    (hn : 0 < (scanEdges s qid).contradictionCount) :
    ((propagateScore s caller qid t).propagatedScores qid).chainScore =
      preContradictionScore s qid *
        (max s.contradictionFloor
          (10000 - (scanEdges s qid).contradictionCount * s.contradictionPenalty)) / 10000 ∧
    (s.contradictionPenalty = 1500 → s.contradictionFloor = 4000 →
      (scanEdges s qid).contradictionCount = 1 →
      max s.contradictionFloor
        (10000 - (scanEdges s qid).contradictionCount * s.contradictionPenalty) = 8500) ∧
    (s.contradictionFloor = 4000 →
      4000 ≤ max s.contradictionFloor
        (10000 - (scanEdges s qid).contradictionCount * s.contradictionPenalty)) := by
  have hb : preContradictionScore s qid < 65536 := by
    unfold preContradictionScore
    dsimp only []
    split
    · exact Nat.mod_lt _ (by norm_num)
    · exact Nat.mod_lt _ (by norm_num)
  have hm : contradictionMultiplier s (scanEdges s qid).contradictionCount ≤ 10000 := by
    rw [contradictionMultiplier_eq_max]
    exact max_le hfl (Nat.sub_le _ _)
  have hlt : preContradictionScore s qid *
      contradictionMultiplier s (scanEdges s qid).contradictionCount / 10000 < 65536 := by
    calc preContradictionScore s qid *
        contradictionMultiplier s (scanEdges s qid).contradictionCount / 10000 ≤
        preContradictionScore s qid * 10000 / 10000 :=
          Nat.div_le_div_right (Nat.mul_le_mul_left _ hm)
      _ = preContradictionScore s qid := Nat.mul_div_cancel _ (by norm_num)
      _ < 65536 := hb
  refine ⟨?_, ?_, ?_⟩
  · rw [propagateScore_stored]
    unfold computeRecord
    dsimp only []
    rw [if_pos hn, Nat.mod_eq_of_lt hlt, contradictionMultiplier_eq_max]
  · intro hp hflr hcnt
    rw [hp, hflr, hcnt]
    decide
  · intro hflr
    rw [hflr]
    exact le_max_left _ _

/-- C6 (witness): applied to the single-contradiction state `c4S`. -/
theorem c6_witness :
    ((propagateScore c4S 9 1 100).propagatedScores 1).chainScore =
      preContradictionScore c4S 1 *
        (max c4S.contradictionFloor
          (10000 - (scanEdges c4S 1).contradictionCount * c4S.contradictionPenalty)) / 10000 ∧
    (c4S.contradictionPenalty = 1500 → c4S.contradictionFloor = 4000 →
      (scanEdges c4S 1).contradictionCount = 1 →
      max c4S.contradictionFloor
        (10000 - (scanEdges c4S 1).contradictionCount * c4S.contradictionPenalty) = 8500) ∧
    (c4S.contradictionFloor = 4000 →
      4000 ≤ max c4S.contradictionFloor
        (10000 - (scanEdges c4S 1).contradictionCount * c4S.contradictionPenalty)) :=
  c6_contradictionPenalty c4S 9 1 100 (by decide) (by decide)

theorem scanStep_after_prop (s : SysState) (caller qid t : Nat) {eid : Nat}
    (hne : (s.edges eid).sourceQuantumId ≠ qid) (acc : ScanAcc) :
    scanStep (propagateScore s caller qid t) acc eid = scanStep s acc eid := by
  unfold scanStep propagateScore
  dsimp only []
  rw [upd_other _ _ _ hne]

theorem depthStep_after_prop (s : SysState) (caller qid t : Nat) {eid : Nat}
    (hne : (s.edges eid).sourceQuantumId ≠ qid) (d : Nat) :
    depthStep (propagateScore s caller qid t) d eid = depthStep s d eid := by
  unfold depthStep propagateScore
  dsimp only []
  rw [upd_other _ _ _ hne]

theorem scan_foldl_after_prop (s : SysState) (caller qid t : Nat) (l : List Nat)
    (h : ∀ eid ∈ l, (s.edges eid).sourceQuantumId ≠ qid) :
    ∀ acc, l.foldl (scanStep (propagateScore s caller qid t)) acc = l.foldl (scanStep s) acc := by
  induction l with
  | nil => intro acc; rfl
  | cons a l ih =>
      intro acc
      rw [List.foldl_cons, List.foldl_cons,
        scanStep_after_prop s caller qid t (h a (List.mem_cons_self a l))]
      exact ih (fun e he => h e (List.mem_cons_of_mem a he)) _

theorem depth_foldl_after_prop (s : SysState) (caller qid t : Nat) (l : List Nat)
    (h : ∀ eid ∈ l, (s.edges eid).sourceQuantumId ≠ qid) :
    ∀ d, l.foldl (depthStep (propagateScore s caller qid t)) d = l.foldl (depthStep s) d := by
  induction l with
  | nil => intro d; rfl
  | cons a l ih =>
      intro d
      rw [List.foldl_cons, List.foldl_cons,
        depthStep_after_prop s caller qid t (h a (List.mem_cons_self a l))]
      exact ih (fun e he => h e (List.mem_cons_of_mem a he)) _

theorem scanEdges_after_prop (s : SysState) (caller qid t : Nat)
    (h : ∀ eid ∈ s.outgoingEdges qid, (s.edges eid).sourceQuantumId ≠ qid) :
    scanEdges (propagateScore s caller qid t) qid = scanEdges s qid :=
  scan_foldl_after_prop s caller qid t (s.outgoingEdges qid) h _

theorem depthOf_after_prop (s : SysState) (caller qid t : Nat)
    (h : ∀ eid ∈ s.outgoingEdges qid, (s.edges eid).sourceQuantumId ≠ qid) :
    depthOf (propagateScore s caller qid t) qid = depthOf s qid :=
  depth_foldl_after_prop s caller qid t (s.outgoingEdges qid) h _

theorem preContradictionScore_after_prop (s : SysState) (caller qid t : Nat)
    (h : ∀ eid ∈ s.outgoingEdges qid, (s.edges eid).sourceQuantumId ≠ qid) :
    preContradictionScore (propagateScore s caller qid t) qid = preContradictionScore s qid := by
  unfold preContradictionScore
  rw [scanEdges_after_prop s caller qid t h]
  rfl

theorem computeRecord_after_prop (s : SysState) (caller qid t1 t2 : Nat)
    (h : ∀ eid ∈ s.outgoingEdges qid, (s.edges eid).sourceQuantumId ≠ qid) :
    computeRecord (propagateScore s caller qid t1) qid t2 =
      { computeRecord s qid t1 with lastUpdated := t2 } := by
  unfold computeRecord
  dsimp only []
  rw [scanEdges_after_prop s caller qid t1 h, depthOf_after_prop s caller qid t1 h,
    preContradictionScore_after_prop s caller qid t1 h]
  rfl

/-- C8 (counterexample): propagating quantum 1 of `c5S` at time 100 and
again at time 200, with nothing changed in between, stores two records
that are NOT identical — they differ in the `lastUpdated` field, which the
contract always sets to the current block timestamp. -/
theorem c8_counterexample :
    (propagateScore (propagateScore c5S 9 1 100) 9 1 200).propagatedScores 1 ≠
      (propagateScore c5S 9 1 100).propagatedScores 1 := by
  decide

/-- C8 (amended): calling propagation twice on an unchanged graph produces
records identical in every field except `lastUpdated`, which carries each
call's timestamp (so the records are fully identical exactly when the two
calls share a timestamp).  The hypothesis rules out an edge listing the
claim as its own dependency, which `createEdge`'s self-reference check
makes unrepresentable. -/
theorem c8_idempotentUpToTimestamp (s : SysState) (caller qid t1 t2 : Nat)
    (h : ∀ eid ∈ s.outgoingEdges qid, (s.edges eid).sourceQuantumId ≠ qid) :
    (propagateScore (propagateScore s caller qid t1) caller qid t2).propagatedScores qid =
      { (propagateScore s caller qid t1).propagatedScores qid with lastUpdated := t2 } := by
  rw [propagateScore_stored, propagateScore_stored, computeRecord_after_prop s caller qid t1 t2 h]

/-- C8 (witness): the two `c5S` propagation records agree on everything but
the timestamp. -/
theorem c8_witness :
    (propagateScore (propagateScore c5S 9 1 100) 9 1 200).propagatedScores 1 =
      { (propagateScore c5S 9 1 100).propagatedScores 1 with lastUpdated := 200 } :=
  c8_idempotentUpToTimestamp c5S 9 1 100 200 (by decide)

/-- C7 (confirmed): from a record with no prior stake under the key and not
locked, `stake(key, X)` moves exactly `X` out of the owner's external
balance into a record holding `X`, and the subsequent `unstake(key)`
returns exactly `X` and leaves the record at zero. -/
theorem c7_stakeRoundTrip (v : VaultState) (tk : TokenState) (vaultAddr ownr key X : Nat)
    (h0 : v.stakes ownr key = 0) (hl : v.locked ownr key = false) (hx : 0 < X)
    (hb : X ≤ tk.balances ownr) (hov : ownr ≠ vaultAddr) :
    (vStake v tk vaultAddr ownr key X).toOption.map
        (fun p => (p.1.stakes ownr key, p.2.balances ownr)) =
      some (X, tk.balances ownr - X) ∧
    (stakeThenUnstake v tk vaultAddr ownr key X).toOption.map
        (fun p => (p.1.stakes ownr key, p.2.balances ownr)) =
      some (0, tk.balances ownr) := by
  have hx0 : ¬ X = 0 := by omega
  have hvo : ¬ vaultAddr = ownr := fun h => hov h.symm
  have hov2 : ¬ ownr = vaultAddr := hov
  constructor
  · simp [vStake, tokenTransfer, upd, upd2, Except.toOption, hb, hx0, h0, hvo, hov2]
  · simp [stakeThenUnstake, vStake, vUnstake, tokenTransfer, upd, upd2, Except.toOption,
      hb, hx0, h0, hl, hvo, hov2, Nat.le_add_left, Nat.sub_add_cancel hb]

/-- C7 (witness): a concrete stake of 42 under key 9 by owner 8 with
balance 100, round-tripped through the vault at address 3. -/
theorem c7_witness :
    (vStake c7V c7T 3 8 9 42).toOption.map
        (fun p => (p.1.stakes 8 9, p.2.balances 8)) = some (42, c7T.balances 8 - 42) ∧
    (stakeThenUnstake c7V c7T 3 8 9 42).toOption.map
        (fun p => (p.1.stakes 8 9, p.2.balances 8)) = some (0, c7T.balances 8) :=
  c7_stakeRoundTrip c7V c7T 3 8 9 42 rfl rfl (by decide) (by decide) (by decide)

theorem postSlash_le (S : Nat) : postSlash S ≤ S := Nat.sub_le _ _

theorem challengerCut_le (S : Nat) : challengerCut S ≤ postSlash S := by
  unfold challengerCut
  calc postSlash S * 6000 / 10000 ≤ postSlash S * 10000 / 10000 :=
        Nat.div_le_div_right (Nat.mul_le_mul_left _ (by norm_num))
    _ = postSlash S := Nat.mul_div_cancel _ (by norm_num)

/-- C3 (counterexample): edge 0 of `c3S` is backed by a 10-token stake
(`S = 10^19` wei).  The claim predicts a post-dispute stake record of
90% of S = 9*10^18 and a challenger credit of 60% of that = 5.4*10^18.
The code actually leaves the record at 3.6*10^18 (the 60% cut is moved
OUT of the record) and credits the challenger 2.54*10^19 (the cut plus
the fixed minted dispute reward). -/
theorem c3_counterexample :
    (disputeEdge c3S 5 0 100).toOption.map
        (fun s1 => (s1.vault.stakes 4 (edgeStakeKey 0), s1.token.balances 5)) =
      some (3600000000000000000, 25400000000000000000) ∧
    (3600000000000000000 : Nat) ≠ 9000000000000000000 ∧
    (25400000000000000000 : Nat) ≠ 5400000000000000000 := by
  refine ⟨by decide, by decide, by decide⟩

/-- C3 (amended): a successful dispute of an Active edge whose proposer's
record holds `S > 0` first slashes the record to `postSlash S =
S - floor(S/10)` (exactly 90% when 10 divides S), then transfers
`challengerCut S = floor(60% of postSlash S)` OUT of the record to the
challenger's external balance, leaving the record at
`postSlash S - challengerCut S`; the challenger's external balance grows
by the cut plus the fixed minted dispute reward. -/
theorem c3_disputeEconomics (s : SysState) (caller eid t : Nat)
    (hact : (s.edges eid).status = EdgeStatus.Active)
    (hprop : ¬ (s.edges eid).proposer = caller)
    (hauth : s.vault.authorized s.dagAddr = true)
    (hS : 0 < s.vault.stakes (s.edges eid).proposer (edgeStakeKey eid))
    (hflags : s.weakLinkFlags eid = [])
    (hbal : s.vault.stakes (s.edges eid).proposer (edgeStakeKey eid) ≤
      s.token.balances s.vaultAddr)
    (hcv : ¬ caller = s.vaultAddr) :
    (disputeEdge s caller eid t).toOption.map
        (fun s1 => (s1.vault.stakes (s.edges eid).proposer (edgeStakeKey eid),
                    s1.token.balances caller, (s1.edges eid).status)) =
      some (postSlash (s.vault.stakes (s.edges eid).proposer (edgeStakeKey eid)) -
              challengerCut (s.vault.stakes (s.edges eid).proposer (edgeStakeKey eid)),
            s.token.balances caller +
              challengerCut (s.vault.stakes (s.edges eid).proposer (edgeStakeKey eid)) +
              s.edgeSurvivalReward,
            EdgeStatus.Disputed) := by
  have hslash : vSlash s.vault s.dagAddr (s.edges eid).proposer (edgeStakeKey eid) 1000 =
      Except.ok
        { s.vault with
            stakes := upd2 s.vault.stakes (s.edges eid).proposer (edgeStakeKey eid)
              (s.vault.stakes (s.edges eid).proposer (edgeStakeKey eid) -
                s.vault.stakes (s.edges eid).proposer (edgeStakeKey eid) * 1000 / 10000) } := by
    unfold vSlash
    rw [if_pos hauth, if_pos (by norm_num)]
    dsimp only []
    rw [if_pos hS]
  have hcb : challengerCut (s.vault.stakes (s.edges eid).proposer (edgeStakeKey eid)) ≤
      s.token.balances s.vaultAddr :=
    le_trans (le_trans (challengerCut_le _) (postSlash_le _)) hbal
  unfold disputeEdge
  rw [if_neg (not_not_intro hact), if_neg hprop]
  dsimp only []
  rw [hslash]
  dsimp only []
  simp only [upd2_self]
  rcases Nat.eq_zero_or_pos
      ((s.vault.stakes (s.edges eid).proposer (edgeStakeKey eid) -
        s.vault.stakes (s.edges eid).proposer (edgeStakeKey eid) * 1000 / 10000) * 6000 / 10000)
      with hcr | hcr
  · rw [hcr, if_neg (lt_irrefl 0), hflags]
    simp only [processFlags, Except.toOption, Option.map_some', mintTok, postSlash,
      challengerCut, hcr]
    refine congrArg some (Prod.ext ?_ (Prod.ext ?_ ?_))
    · dsimp only []
      rw [upd2_self]
      omega
    · dsimp only []
      rw [upd_self]
      omega
    · dsimp only []
      rw [upd_self]
  · rw [if_pos hcr]
    have htrans : vTransferStake
        { s.vault with
            stakes := upd2 s.vault.stakes (s.edges eid).proposer (edgeStakeKey eid)
              (s.vault.stakes (s.edges eid).proposer (edgeStakeKey eid) -
                s.vault.stakes (s.edges eid).proposer (edgeStakeKey eid) * 1000 / 10000) }
        s.token s.vaultAddr s.dagAddr (s.edges eid).proposer (edgeStakeKey eid) caller
        ((s.vault.stakes (s.edges eid).proposer (edgeStakeKey eid) -
          s.vault.stakes (s.edges eid).proposer (edgeStakeKey eid) * 1000 / 10000) * 6000 / 10000) =
        Except.ok
          ({ s.vault with
              stakes := upd2
                (upd2 s.vault.stakes (s.edges eid).proposer (edgeStakeKey eid)
                  (s.vault.stakes (s.edges eid).proposer (edgeStakeKey eid) -
                    s.vault.stakes (s.edges eid).proposer (edgeStakeKey eid) * 1000 / 10000))
                (s.edges eid).proposer (edgeStakeKey eid)
                ((s.vault.stakes (s.edges eid).proposer (edgeStakeKey eid) -
                  s.vault.stakes (s.edges eid).proposer (edgeStakeKey eid) * 1000 / 10000) -
                  (s.vault.stakes (s.edges eid).proposer (edgeStakeKey eid) -
                    s.vault.stakes (s.edges eid).proposer (edgeStakeKey eid) * 1000 / 10000) *
                    6000 / 10000) },
           { balances :=
               upd (upd s.token.balances s.vaultAddr
                   (s.token.balances s.vaultAddr -
                     (s.vault.stakes (s.edges eid).proposer (edgeStakeKey eid) -
                       s.vault.stakes (s.edges eid).proposer (edgeStakeKey eid) * 1000 / 10000) *
                       6000 / 10000))
                 caller
                 ((upd s.token.balances s.vaultAddr
                     (s.token.balances s.vaultAddr -
                       (s.vault.stakes (s.edges eid).proposer (edgeStakeKey eid) -
                         s.vault.stakes (s.edges eid).proposer (edgeStakeKey eid) * 1000 / 10000) *
                         6000 / 10000)) caller +
                   (s.vault.stakes (s.edges eid).proposer (edgeStakeKey eid) -
                     s.vault.stakes (s.edges eid).proposer (edgeStakeKey eid) * 1000 / 10000) *
                     6000 / 10000) }) := by
      unfold vTransferStake tokenTransfer
      rw [if_pos hauth]
      dsimp only []
      rw [if_pos (by rw [upd2_self]; exact challengerCut_le _),
        if_pos (show (s.vault.stakes (s.edges eid).proposer (edgeStakeKey eid) -
            s.vault.stakes (s.edges eid).proposer (edgeStakeKey eid) * 1000 / 10000) * 6000 /
            10000 ≤ s.token.balances s.vaultAddr from hcb)]
      dsimp only []
      rw [upd2_self]
    rw [htrans]
    dsimp only []
    rw [hflags]
    simp only [processFlags, Except.toOption, Option.map_some', mintTok, postSlash,
      challengerCut]
    refine congrArg some ?_
    refine Prod.ext ?_ (Prod.ext ?_ ?_)
    · dsimp only []
      rw [upd2_self]
    · dsimp only []
      rw [upd_self, upd_self, upd_other _ _ _ hcv]
    · dsimp only []
      rw [upd_self]

/-- C3 (witness for the amended theorem): disputing edge 0 of `c3S`
(stake `S = 10^19`): the record ends at `postSlash S - challengerCut S`
and challenger 5's balance at `challengerCut S` plus the fixed reward. -/
theorem c3_witness :
    (disputeEdge c3S 5 0 100).toOption.map
        (fun s1 => (s1.vault.stakes (c3S.edges 0).proposer (edgeStakeKey 0),
                    s1.token.balances 5, (s1.edges 0).status)) =
      some (postSlash (c3S.vault.stakes (c3S.edges 0).proposer (edgeStakeKey 0)) -
              challengerCut (c3S.vault.stakes (c3S.edges 0).proposer (edgeStakeKey 0)),
            c3S.token.balances 5 +
              challengerCut (c3S.vault.stakes (c3S.edges 0).proposer (edgeStakeKey 0)) +
              c3S.edgeSurvivalReward,
            EdgeStatus.Disputed) :=
  c3_disputeEconomics c3S 5 0 100 (by decide) (by decide) (by decide) (by decide) rfl
    (by decide) (by decide)

theorem createEdge_ok_inv {s : SysState} {caller t srcQ tgtQ cid conf : Nat} {ety : EdgeType}
    {s1 : SysState} {eid : Nat}
    (h : createEdge s caller t srcQ tgtQ ety cid conf = Except.ok (s1, eid)) :
    srcQ ≠ tgtQ ∧
    (ety = EdgeType.Depends → isAcyclicAux s tgtQ MAX_CYCLE_CHECK_DEPTH srcQ = true) ∧
    eid = s.nextEdgeId ∧
    s1.nextEdgeId = s.nextEdgeId + 1 ∧
    s1.edges = upd s.edges s.nextEdgeId
      { id := s.nextEdgeId, sourceQuantumId := srcQ, targetQuantumId := tgtQ, edgeType := ety,
        status := EdgeStatus.Active, proposer := caller, evidenceCid := cid,
        stakeAmount := s.vault.stakes caller (edgeStakeKey s.nextEdgeId),
        confidence := conf, createdAt := t } ∧
    s1.outgoingEdges = upd s.outgoingEdges tgtQ (s.outgoingEdges tgtQ ++ [s.nextEdgeId]) := by
  unfold createEdge at h
  split at h
  · exact absurd h (by simp)
  rename_i hne
  split at h
  · exact absurd h (by simp)
  split at h
  · exact absurd h (by simp)
  split at h
  · exact absurd h (by simp)
  split at h
  · exact absurd h (by simp)
  split at h
  · exact absurd h (by simp)
  rename_i hcyc
  dsimp only [] at h
  split at h
  · exact absurd h (by simp)
  split at h
  · exact absurd h (by simp)
  rename_i v1 hlock
  rw [Except.ok.injEq, Prod.mk.injEq] at h
  obtain ⟨hs1, heid⟩ := h
  subst hs1
  refine ⟨hne, ?_, heid.symm, rfl, rfl, rfl⟩
  intro hd
  rcases Bool.eq_false_or_eq_true (isAcyclicAux s tgtQ MAX_CYCLE_CHECK_DEPTH srcQ) with ht | hf
  · exact ht
  · exact absurd ⟨hd, hf⟩ hcyc

theorem step_mono {s s1 : SysState} {n tgtQ : Nat} {E : Edge}
    (hb : adjBounded s) (hn : s.nextEdgeId = n)
    (hedges : s1.edges = upd s.edges n E)
    (hout : s1.outgoingEdges = upd s.outgoingEdges tgtQ (s.outgoingEdges tgtQ ++ [n]))
    {a b : Nat} (st : activeDependsStep s a b) : activeDependsStep s1 a b := by
  obtain ⟨eid, hmem, hst, hty, hsrc⟩ := st
  have hlt : eid < n := hn ▸ hb a eid hmem
  refine ⟨eid, ?_, ?_, ?_, ?_⟩
  · rw [hout]
    by_cases ha : a = tgtQ
    · subst ha
      rw [upd_self]
      exact List.mem_append_left _ hmem
    · rw [upd_other _ _ _ ha]
      exact hmem
  · rw [hedges, upd_other _ _ _ (Nat.ne_of_lt hlt)]
    exact hst
  · rw [hedges, upd_other _ _ _ (Nat.ne_of_lt hlt)]
    exact hty
  · rw [hedges, upd_other _ _ _ (Nat.ne_of_lt hlt)]
    exact hsrc

theorem dwalk_mono {s s1 : SysState} {n tgtQ : Nat} {E : Edge}
    (hb : adjBounded s) (hn : s.nextEdgeId = n)
    (hedges : s1.edges = upd s.edges n E)
    (hout : s1.outgoingEdges = upd s.outgoingEdges tgtQ (s.outgoingEdges tgtQ ++ [n]))
    {a b m : Nat} (w : DWalk s a b m) : DWalk s1 a b m := by
  induction w with
  | nil a => exact DWalk.nil a
  | cons st _ ih => exact DWalk.cons (step_mono hb hn hedges hout st) ih

theorem step_decompose {s s1 : SysState} {n tgtQ : Nat} {E : Edge}
    (hb : adjBounded s) (hn : s.nextEdgeId = n)
    (hedges : s1.edges = upd s.edges n E)
    (hout : s1.outgoingEdges = upd s.outgoingEdges tgtQ (s.outgoingEdges tgtQ ++ [n]))
    {a b : Nat} (st : activeDependsStep s1 a b) :
    activeDependsStep s a b ∨
      (a = tgtQ ∧ E.status = EdgeStatus.Active ∧ E.edgeType = EdgeType.Depends ∧
        b = E.sourceQuantumId) := by
  obtain ⟨eid, hmem, hst, hty, hsrc⟩ := st
  rw [hout] at hmem
  rw [hedges] at hst hty hsrc
  by_cases ha : a = tgtQ
  · subst ha
    rw [upd_self] at hmem
    rcases List.mem_append.mp hmem with hm | hm
    · have hlt : eid < n := hn ▸ hb _ eid hm
      rw [upd_other _ _ _ (Nat.ne_of_lt hlt)] at hst hty hsrc
      exact Or.inl ⟨eid, hm, hst, hty, hsrc⟩
    · have he : eid = n := by simpa using hm
      subst he
      rw [upd_self] at hst hty hsrc
      exact Or.inr ⟨rfl, hst, hty, hsrc.symm⟩
  · rw [upd_other _ _ _ ha] at hmem
    have hlt : eid < n := hn ▸ hb _ eid hmem
    rw [upd_other _ _ _ (Nat.ne_of_lt hlt)] at hst hty hsrc
    exact Or.inl ⟨eid, hmem, hst, hty, hsrc⟩

theorem dwalk_decompose {s s1 : SysState} {n tgtQ : Nat} {E : Edge}
    (hb : adjBounded s) (hn : s.nextEdgeId = n)
    (hedges : s1.edges = upd s.edges n E)
    (hout : s1.outgoingEdges = upd s.outgoingEdges tgtQ (s.outgoingEdges tgtQ ++ [n]))
    {a b m : Nat} (w : DWalk s1 a b m) :
    DWalk s a b m ∨
      ∃ m1 m2, m1 + 1 + m2 = m ∧ DWalk s a tgtQ m1 ∧ E.status = EdgeStatus.Active ∧
        E.edgeType = EdgeType.Depends ∧ DWalk s1 E.sourceQuantumId b m2 := by
  induction w with
  | nil a => exact Or.inl (DWalk.nil a)
  | cons st w ih =>
      rcases step_decompose hb hn hedges hout st with hstep | ⟨ha, hEst, hEty, hbe⟩
      · rcases ih with hw | ⟨m1, m2, hsum, w1, hs1', hs2', w2⟩
        · exact Or.inl (DWalk.cons hstep hw)
        · exact Or.inr ⟨m1 + 1, m2, by omega, DWalk.cons hstep w1, hs1', hs2', w2⟩
      · subst ha
        refine Or.inr ⟨0, _, ?_, DWalk.nil _, hEst, hEty, hbe ▸ w⟩
        omega

theorem no_walk_of_isAcyclic {s : SysState} {srcQ tgtQ : Nat}
    (hdfs : isAcyclicAux s tgtQ MAX_CYCLE_CHECK_DEPTH srcQ = true)
    {m : Nat} (h1 : 1 ≤ m) (h2 : m ≤ MAX_CYCLE_CHECK_DEPTH) (w : DWalk s srcQ tgtQ m) :
    False := by
  have hreach : dependsReachableWithin s tgtQ MAX_CYCLE_CHECK_DEPTH srcQ = true :=
    (reach_iff_walk s tgtQ _ srcQ).mpr ⟨m, h1, h2, w⟩
  rw [isAcyclicAux_eq_not_reach, hreach] at hdfs
  simp at hdfs

theorem createEdge_preserves_good {s s1 : SysState} {caller t srcQ tgtQ cid conf eid : Nat}
    {ety : EdgeType} (hg : GoodState s)
    (h : createEdge s caller t srcQ tgtQ ety cid conf = Except.ok (s1, eid)) :
    GoodState s1 := by
  obtain ⟨hb, hnc⟩ := hg
  obtain ⟨hne, hcyc, -, hnext, hedges, hout⟩ := createEdge_ok_inv h
  constructor
  · intro a e he
    rw [hout] at he
    rw [hnext]
    by_cases ha : a = tgtQ
    · subst ha
      rw [upd_self] at he
      rcases List.mem_append.mp he with hm | hm
      · exact Nat.lt_succ_of_lt (hb _ _ hm)
      · have : e = s.nextEdgeId := by simpa using hm
        rw [this]
        exact Nat.lt_succ_self _
    · rw [upd_other _ _ _ ha] at he
      exact Nat.lt_succ_of_lt (hb _ _ he)
  · intro a m h1 h2 w
    rcases dwalk_decompose hb rfl hedges hout w with hw | ⟨m1, m2, hsum, w1, hEst, hEty, w2⟩
    · exact hnc a m h1 h2 hw
    · have hdfs := hcyc hEty
      have wmono : DWalk s1 a tgtQ m1 := dwalk_mono hb rfl hedges hout w1
      have wcomp : DWalk s1 srcQ tgtQ (m2 + m1) := dwalk_trans w2 wmono
      rcases dwalk_decompose hb rfl hedges hout wcomp with hw2 | ⟨k1, k2, hsum2, u1, -, -, -⟩
      · by_cases hz : m2 + m1 = 0
        · rw [hz] at hw2
          exact hne (dwalk_zero hw2)
        · exact no_walk_of_isAcyclic hdfs (by omega) (by omega) hw2
      · by_cases hz : k1 = 0
        · rw [hz] at u1
          exact hne (dwalk_zero u1)
        · exact no_walk_of_isAcyclic hdfs (by omega) (by omega) u1

theorem baseState_good : GoodState baseState := by
  constructor
  · intro a eid h
    exact absurd h (List.not_mem_nil eid)
  · intro a n h1 h2 w
    cases w with
    | nil => omega
    | cons st w' =>
        obtain ⟨eid, hmem, -⟩ := st
        exact absurd hmem (List.not_mem_nil eid)

/-- C1 (counterexample): the 22 accepted `createEdge` calls of `c1Calls`
build a 21-hop dependency chain and then close it: every call passes the
bounded cycle check (the closing path is longer than the depth-20 DFS can
see), yet the resulting Active Depends edges contain the 22-hop cycle
`c1Path`.  So accepted insertions CAN create a cycle. -/
theorem c1_counterexample : c1CycleFound = true := by
  decide

/-- C1 (amended): the bounded DFS does prevent every SHORT cycle: starting
from a state whose adjacency lists are well-formed and which has no Active
Depends cycle of at most `MAX_CYCLE_CHECK_DEPTH + 1 = 21` hops, any
sequence of `createEdge` transactions (rejected calls reverting) preserves
that property — a cycle can only ever arise with more than 21 edges. -/
theorem c1_boundedAcyclicity (s : SysState) (calls : List CreateCall) (hg : GoodState s) :
    GoodState (runCreates s calls) := by
  induction calls generalizing s with
  | nil => exact hg
  | cons c rest ih =>
      unfold runCreates
      split
      · rename_i s1 eid heq
        exact ih s1 (createEdge_preserves_good hg heq)
      · exact ih s hg

/-- C1 (witness for the amended theorem): running the first three calls of
`c1Calls` from the fresh deployment keeps the invariant. -/
theorem c1_witness : GoodState (runCreates baseState (c1Calls.take 3)) :=
  c1_boundedAcyclicity baseState (c1Calls.take 3) baseState_good

end TruthSea
